import Mathlib

/-!
Verification of the review-reply pipeline in `functions/reply_reviews.py`.

The Python source is shallowly embedded: dictionaries become structures,
timestamps become integers, the paginated platform feed and the generation
service become oracles (functions supplied as arguments), and exceptions
become explicit error values.  Every definition below mirrors a specific
function or expression of the source file.
-/

namespace ReplyReviews

/-! ### String helpers (Python `str.startswith`, `str.strip`, `int(...)`) -/

/-- Character-list version of Python `s.startswith(pre)`. -/
def startsWithChars : List Char → List Char → Bool
  | _, [] => true
  | [], _ :: _ => false
  | c :: cs, p :: ps => c = p && startsWithChars cs ps

/-- Python `s.startswith(pre)` on strings. -/
def pyStartsWith (s pre : String) : Bool :=
  startsWithChars s.toList pre.toList

/-- Python `s.endswith(suf)` on character lists, via the reversed lists. -/
def endsWithChars (s suf : List Char) : Bool :=
  startsWithChars s.reverse suf.reverse

/-- Python `s.strip()` on character lists: drop whitespace on both ends. -/
def pyTrimChars (l : List Char) : List Char :=
  ((l.dropWhile Char.isWhitespace).reverse.dropWhile Char.isWhitespace).reverse

/-- Truthiness of Python `s.strip()`: the stripped string is empty iff
every character of `s` is whitespace. -/
def strippedEmpty (s : String) : Bool :=
  s.toList.all Char.isWhitespace

/-- Value of a digit list read in base 10 (helper for `pyParseInt`). -/
def digitsToNat (ds : List Char) : Nat :=
  ds.foldl (fun a c => 10 * a + (c.toNat - '0'.toNat)) 0

/-- Model of Python `int(s)` on strings: optional surrounding whitespace,
an optional sign, then one or more decimal digits; anything else raises
`ValueError`, modelled as `none`. -/
def pyParseInt (s : String) : Option Int :=
  match pyTrimChars s.toList with
  | [] => none
  | '-' :: ds =>
    if !ds.isEmpty && ds.all Char.isDigit then some (-(digitsToNat ds : Int)) else none
  | '+' :: ds =>
    if !ds.isEmpty && ds.all Char.isDigit then some (digitsToNat ds : Int) else none
  | ds =>
    if ds.all Char.isDigit then some (digitsToNat ds : Int) else none

/-! ### Data model -/

/-- A review record as consumed by the pipeline.  `comment` is `none` when
the `"comment"` key is absent; `hasReviewReply` is the truthiness of
`r.get("reviewReply")`; `createTime` is the parsed `createTime` timestamp
on an integral time axis. -/
structure Review where
  reviewId : String
  comment : Option String
  hasReviewReply : Bool
  createTime : Int
  deriving DecidableEq

/-- A generated reply draft: one element of the JSON array returned by the
generation service, after validation. -/
structure ReplyDraft where
  review_id : String
  reply_text : String
  deriving DecidableEq

/-- One element of the parsed JSON array of a batch response: either a dict
carrying both required keys (`valid id text`) or anything else. -/
inductive JEntry where
  | valid : String → String → JEntry
  | invalid : JEntry
  deriving DecidableEq

/-- One page of the platform's paginated reviews endpoint: the page's
reviews and whether the response carries a `nextPageToken`. -/
structure Page where
  reviews : List Review
  hasNext : Bool

/-! ### `fetch_gmb_reviews`: pagination loop and time-window filter -/

/-- The in-window filter of one page: the source keeps a review when
`createTime >= cutoff_date`. -/
def filteredPage (feed : Nat → Page) (cutoff : Int) (i : Nat) : List Review :=
  (feed i).reviews.filter (fun r => cutoff ≤ r.createTime)

/-- The `while True` pagination loop of `fetch_gmb_reviews`.  The feed is an
oracle mapping the page index (the chain of `nextPageToken`s) to a page.
Each iteration filters the page to the time window, appends the survivors,
and breaks when the response has no `nextPageToken` or the page contributed
zero in-window reviews.  `fuel` bounds the number of iterations; `none`
means the loop did not finish within `fuel` iterations. -/
def fetchLoop (feed : Nat → Page) (cutoff : Int) :
    Nat → Nat → List Review → Option (List Review)
  | 0, _, _ => none
  | fuel + 1, i, acc =>
    if (feed i).hasNext = false ∨ filteredPage feed cutoff i = []
    then some (acc ++ filteredPage feed cutoff i)
    else fetchLoop feed cutoff fuel (i + 1) (acc ++ filteredPage feed cutoff i)

/-! ### `generate_review_replies_batch` -/

/-- Source line 217–218: `if raw_content.startswith("```json"):
raw_content = raw_content[7:].strip()`. -/
def stripLeadingJsonFence (r0 : List Char) : List Char :=
  if startsWithChars r0 ("```json".toList) then pyTrimChars (r0.drop 7) else r0

/-- Source line 219–220: `if raw_content.endswith("```"):
raw_content = raw_content[:-3].strip()`. -/
def stripTrailingFence (r1 : List Char) : List Char :=
  if endsWithChars r1 ("```".toList) then pyTrimChars (r1.take (r1.length - 3)) else r1

/-- Fence stripping applied to the raw generation response (source lines
214–220): the response is first `.strip()`ed, then a leading ` ```json `
fence marker (7 characters) and a trailing ` ``` ` are removed, each with a
re-strip. -/
def stripFencesChars (raw : List Char) : List Char :=
  stripTrailingFence (stripLeadingJsonFence (pyTrimChars raw))

/-- The validation test of one parsed element: it must be a dict holding
both a `review_id` and a `reply_text` key. -/
def entryValid : JEntry → Bool
  | .valid _ _ => true
  | .invalid => false

/-- The draft carried by a valid entry (the dict itself is appended to
`all_replies` in the source). -/
def toDraft : JEntry → ReplyDraft
  | .valid i t => ⟨i, t⟩
  | .invalid => ⟨"", ""⟩

/-- Drafts contributed by one batch.  The oracle value is `none` when the
generation call or the JSON parse raised (both `except` arms `continue`
with nothing appended), and `some es` when parsing yielded the list `es`.
Validation raises at the first element that is not a dict with both keys,
so a batch contributes its entries only when all of them are valid. -/
def processBatch (resp : Option (List JEntry)) : List ReplyDraft :=
  match resp with
  | none => []
  | some es => if es.all entryValid then es.map toDraft else []

/-- `reviews[i:i+batch_size]` slicing loop of `range(0, len(reviews),
batch_size)`, with explicit fuel (the list length always suffices when
`batch_size ≥ 1`). -/
def chunkAux : Nat → Nat → List Review → List (List Review)
  | 0, _, _ => []
  | _ + 1, _, [] => []
  | fuel + 1, bs, l@(_ :: _) => l.take bs :: chunkAux fuel bs (l.drop bs)

/-- The consecutive batches `reviews[0:bs], reviews[bs:2*bs], ...`. -/
def chunkList (bs : Nat) (l : List Review) : List (List Review) :=
  chunkAux l.length bs l

/-- The accumulation loop: `all_replies.extend(batch_replies)` for each
batch in order, where batch number `k` receives response `responses k`. -/
def genLoop (responses : Nat → Option (List JEntry)) : Nat → List (List Review) → List ReplyDraft
  | _, [] => []
  | k, _ :: bs => processBatch (responses k) ++ genLoop responses (k + 1) bs

/-- `generate_review_replies_batch`: split into batches of at most
`batch_size`, obtain one response per batch from the generation oracle, and
accumulate the surviving drafts. -/
def generateReviewRepliesBatch (responses : Nat → Option (List JEntry))
    (reviews : List Review) (batch_size : Nat) : List ReplyDraft :=
  genLoop responses 0 (chunkList batch_size reviews)

/-! ### `post_review_reply` and `reply_to_unreplied_reviews` -/

/-- Eligibility filter of the orchestrator (source line 264):
`not r.get("reviewReply") and r.get("comment", "").strip()`. -/
def eligible (r : Review) : Bool :=
  !r.hasReviewReply && !(strippedEmpty (r.comment.getD ""))

/-- The publish loop over `zip(unreplied_reviews, replies)`.  `post` is the
oracle for `post_review_reply` (`Except.error` models the raised
`RuntimeError`).  The result is the list of `(review_id, reply_text)`
pairs for which a publish attempt was made, in order, together with the
error that aborted the loop, if any: an exception propagates out of the
`for` loop to the surrounding `try`, which logs and re-raises. -/
def publishLoop (post : String → String → Except String Unit) :
    List (Review × ReplyDraft) → List (String × String) × Option String
  | [] => ([], none)
  | (r, d) :: rest =>
    match post r.reviewId d.reply_text with
    | .ok _ =>
      let res := publishLoop post rest
      ((r.reviewId, d.reply_text) :: res.1, res.2)
    | .error e => ([(r.reviewId, d.reply_text)], some e)

/-- `reply_to_unreplied_reviews`: filter to the eligible set, return at once
when it is empty, otherwise generate drafts with `batch_size=10`, zip them
positionally with the eligible reviews and publish each pair.  The result
is the attempts made and the propagated error, if any. -/
def replyToUnrepliedReviews (responses : Nat → Option (List JEntry))
    (post : String → String → Except String Unit) (reviews : List Review) :
    List (String × String) × Option String :=
  if (reviews.filter eligible).isEmpty then ([], none)
  else
    publishLoop post ((reviews.filter eligible).zip
      (generateReviewRepliesBatch responses (reviews.filter eligible) 10))

/-! ### The HTTP entry point `reply_reviews` -/

/-- Outcome of the entry point after a successful fetch: `ok N` is the
`200` body `"Processed N unreplied reviews"`, `err e` is the `500`
response produced when the orchestrator re-raises. -/
inductive HttpResult where
  | ok : Nat → HttpResult
  | err : String → HttpResult
  deriving DecidableEq

/-- Lines 322–325 of the source: run the orchestrator on the fetched
reviews; on success report `N = len([r for r in reviews if not
r.get("reviewReply") and r.get("comment", "").strip()])`.  The publish
attempts are returned alongside for inspection. -/
def replyReviewsCore (responses : Nat → Option (List JEntry))
    (post : String → String → Except String Unit) (reviews : List Review) :
    HttpResult × List (String × String) :=
  match replyToUnrepliedReviews responses post reviews with
  | (atts, some e) => (HttpResult.err e, atts)
  | (atts, none) => (HttpResult.ok (reviews.filter eligible).length, atts)

/-- The `days` validation of the entry point (lines 315–319): `int(days)`
either yields an integer or the handler returns
`400 "Days must be an integer"`. -/
def daysValidation (s : String) : Except String Int :=
  match pyParseInt s with
  | none => Except.error "Days must be an integer"
  | some d => Except.ok d

/-- `cutoff_date = datetime.utcnow() - timedelta(days=days_int)` on the
integral time axis (one unit = one day). -/
def cutoffDate (now d : Int) : Int := now - d

/-! ### URL construction and identifier normalization -/

/-- `BASE_URL_LOCATIONS_V4`. -/
def baseUrlLocationsV4 : String := "https://mybusiness.googleapis.com/v4"

/-- Normalization of `account_id` (identical in `fetch_gmb_reviews` and
`post_review_reply`): prepend `accounts/` unless already present. -/
def normAccount (a : String) : String :=
  if pyStartsWith a "accounts/" then a else "accounts/" ++ a

/-- Normalization of `location_id`: prepend `locations/` unless already
present. -/
def normLocation (l : String) : String :=
  if pyStartsWith l "locations/" then l else "locations/" ++ l

/-- The reviews-list URL built by `fetch_gmb_reviews`. -/
def reviewsUrl (a l : String) : String :=
  baseUrlLocationsV4 ++ "/" ++ normAccount a ++ "/" ++ normLocation l ++ "/reviews"

/-- The reply URL built by `post_review_reply`. -/
def replyUrl (a l rid : String) : String :=
  baseUrlLocationsV4 ++ "/" ++ normAccount a ++ "/" ++ normLocation l ++
    "/reviews/" ++ rid ++ "/reply"

/-! ### Concrete instances used as counterexamples and witnesses -/

/-- An eligible review `r1` (no reply, non-blank comment). -/
def c1r1 : Review := ⟨"r1", some "good", false, 0⟩

/-- An eligible review `r2`. -/
def c1r2 : Review := ⟨"r2", some "bad", false, 0⟩

/-- Generation oracle answering every batch with valid drafts for `r1` and
`r2`. -/
def c1resp : Nat → Option (List JEntry) :=
  fun _ => some [.valid "r1" "t1", .valid "r2" "t2"]

/-- Publish oracle failing exactly on review `r1`. -/
def c1post : String → String → Except String Unit :=
  fun rid _ => if rid == "r1" then .error "boom" else .ok ()

/-- A single-review batch input for the generator. -/
def c2rev : Review := ⟨"a", some "x", false, 0⟩

/-- Generation oracle answering with two structurally valid drafts whose
ids do not occur in the batch. -/
def c2resp : Nat → Option (List JEntry) :=
  fun _ => some [.valid "b" "t", .valid "c" "u"]

/-- Generation oracle answering every batch with a single draft for `r1`. -/
def c5resp : Nat → Option (List JEntry) := fun _ => some [.valid "r1" "t1"]

/-- Publish oracle that always succeeds. -/
def okPost : String → String → Except String Unit := fun _ _ => .ok ()

/-- A review carrying a whitespace-only comment (ineligible). -/
def wsReview : Review := ⟨"w1", some "  ", false, 0⟩

/-- A feed whose first page holds one in-window review and whose later
pages hold none. -/
def c4feed : Nat → Page :=
  fun i => if i = 0 then ⟨[c1r1], true⟩ else ⟨[], true⟩

/-- A feed with a `nextPageToken` on every page and no reviews at all. -/
def c4feedEmpty : Nat → Page := fun _ => ⟨[], true⟩

/-! ### Helper lemmas -/

lemma startsWithChars_same_append (p l : List Char) :
    startsWithChars (p ++ l) p = true := by
  induction p with
  | nil => cases l <;> rfl
  | cons c ps ih => simp [startsWithChars, ih]

lemma dropWhile_ws_front {c : Char} (hc : c.isWhitespace = false) (l : List Char) :
    List.dropWhile Char.isWhitespace (c :: l) = c :: l := by
  rw [List.dropWhile_cons, hc]
  simp

lemma pyTrimChars_eq_self {l : List Char}
    (h1 : l.dropWhile Char.isWhitespace = l)
    (h2 : l.reverse.dropWhile Char.isWhitespace = l.reverse) :
    pyTrimChars l = l := by
  unfold pyTrimChars
  rw [h1, h2, List.reverse_reverse]

lemma dropWhile_head_false {p : Char → Bool} {c : Char} {cs : List Char}
    (h : List.dropWhile p (c :: cs) = c :: cs) : p c = false := by
  have hz := List.dropWhile_eq_self_iff.mp h (by simp)
  simpa using hz

lemma pyStartsWith_append_self (p s : String) : pyStartsWith (p ++ s) p = true := by
  unfold pyStartsWith
  rw [show (p ++ s).toList = p.toList ++ s.toList from String.data_append p s]
  exact startsWithChars_same_append _ _

/-! ### Claim C9: markdown fence stripping -/

/-- C9 counterexample: a code fence without a language tag is not removed.
For the raw response ` ```⏎[]⏎``` ` the source strips only the trailing
fence, so the parsed content still starts with the opening delimiter and is
not the fenced content `[]`. -/
theorem c9_fence_without_tag_kept :
    stripFencesChars ("```\n[]\n```".toList) = "```\n[]".toList ∧
    ¬ stripFencesChars ("```\n[]\n```".toList) = "[]".toList := by
  decide

/-- C9 (amended): only a fence opened with ` ```json ` is stripped in
front; the trailing ` ``` ` is stripped whenever present.  Hence for every
content `s` with no surrounding whitespace, wrapping in a ` ```json `-tagged
fence is undone exactly, recovering `s`. -/
theorem c9_stripFences_json_tagged_fence (s : List Char)
    (h1 : s.dropWhile Char.isWhitespace = s)
    (h2 : s.reverse.dropWhile Char.isWhitespace = s.reverse) :
    stripFencesChars ("```json".toList ++ s ++ "```".toList) = s := by
  have hA : List.dropWhile Char.isWhitespace
      ("```json".toList ++ s ++ "```".toList) =
      "```json".toList ++ s ++ "```".toList :=
    dropWhile_ws_front (c := '`') (by decide) _
  have hB : List.dropWhile Char.isWhitespace
      ("```json".toList ++ s ++ "```".toList).reverse =
      ("```json".toList ++ s ++ "```".toList).reverse := by
    rw [List.reverse_append]
    exact dropWhile_ws_front (c := '`') (by decide) _
  have hw : pyTrimChars ("```json".toList ++ s ++ "```".toList) =
      "```json".toList ++ s ++ "```".toList := pyTrimChars_eq_self hA hB
  have hsw : startsWithChars ("```json".toList ++ s ++ "```".toList)
      ("```json".toList) = true := by
    rw [List.append_assoc]
    exact startsWithChars_same_append _ _
  have hdrop : ("```json".toList ++ s ++ "```".toList).drop 7 =
      s ++ "```".toList := by
    rw [List.append_assoc]
    exact List.drop_left' (by rfl)
  have hF1 : List.dropWhile Char.isWhitespace (s ++ "```".toList) =
      s ++ "```".toList := by
    cases s with
    | nil => exact dropWhile_ws_front (c := '`') (by decide) _
    | cons c cs =>
      exact dropWhile_ws_front (dropWhile_head_false h1) _
  have hF2 : List.dropWhile Char.isWhitespace (s ++ "```".toList).reverse =
      (s ++ "```".toList).reverse := by
    rw [List.reverse_append]
    exact dropWhile_ws_front (c := '`') (by decide) _
  have hFtrim : pyTrimChars (s ++ "```".toList) = s ++ "```".toList :=
    pyTrimChars_eq_self hF1 hF2
  have hends : endsWithChars (s ++ "```".toList) ("```".toList) = true := by
    unfold endsWithChars
    rw [List.reverse_append]
    exact startsWithChars_same_append _ _
  have hlen : (s ++ "```".toList).length - 3 = s.length := by
    simp [List.length_append]
  have htake : (s ++ "```".toList).take s.length = s :=
    List.take_left' rfl
  unfold stripFencesChars
  rw [hw]
  unfold stripLeadingJsonFence
  rw [hsw, if_pos rfl, hdrop, hFtrim]
  unfold stripTrailingFence
  rw [hends, if_pos rfl, hlen, htake]
  exact pyTrimChars_eq_self h1 h2

/-- C9 witness: the amended statement at the concrete content `[]`. -/
theorem c9_stripFences_json_tagged_fence_witness :
    stripFencesChars ("```json".toList ++ "[]".toList ++ "```".toList) =
      "[]".toList :=
  c9_stripFences_json_tagged_fence ("[]".toList) (by decide) (by decide)

/-! ### Claim C10: identifier normalization is idempotent -/

/-- C10: `fetch_gmb_reviews` and `post_review_reply` prepend `accounts/`
and `locations/` only when absent, so normalization is idempotent and the
platform URLs built from a bare identifier and from its prefixed form
coincide. -/
theorem c10_normalization_idempotent :
    (∀ a, normAccount (normAccount a) = normAccount a) ∧
    (∀ l, normLocation (normLocation l) = normLocation l) ∧
    (∀ a l rid, pyStartsWith a "accounts/" = false →
      pyStartsWith l "locations/" = false →
      reviewsUrl ("accounts/" ++ a) ("locations/" ++ l) = reviewsUrl a l ∧
      replyUrl ("accounts/" ++ a) ("locations/" ++ l) rid = replyUrl a l rid) := by
  have hnA : ∀ a, normAccount ("accounts/" ++ a) = "accounts/" ++ a := by
    intro a
    unfold normAccount
    rw [pyStartsWith_append_self, if_pos rfl]
  have hnL : ∀ l, normLocation ("locations/" ++ l) = "locations/" ++ l := by
    intro l
    unfold normLocation
    rw [pyStartsWith_append_self, if_pos rfl]
  refine ⟨?_, ?_, ?_⟩
  · intro a
    by_cases h : pyStartsWith a "accounts/" = true
    · unfold normAccount
      rw [h, if_pos rfl, h, if_pos rfl]
    · have h' : pyStartsWith a "accounts/" = false := by simpa using h
      have hb : normAccount a = "accounts/" ++ a := by
        unfold normAccount
        rw [h']
        simp
      rw [hb, hnA]
  · intro l
    by_cases h : pyStartsWith l "locations/" = true
    · unfold normLocation
      rw [h, if_pos rfl, h, if_pos rfl]
    · have h' : pyStartsWith l "locations/" = false := by simpa using h
      have hb : normLocation l = "locations/" ++ l := by
        unfold normLocation
        rw [h']
        simp
      rw [hb, hnL]
  · intro a l rid ha hl
    have hba : normAccount a = "accounts/" ++ a := by
      unfold normAccount
      rw [ha]
      simp
    have hbl : normLocation l = "locations/" ++ l := by
      unfold normLocation
      rw [hl]
      simp
    constructor
    · unfold reviewsUrl
      rw [hnA, hnL, hba, hbl]
    · unfold replyUrl
      rw [hnA, hnL, hba, hbl]

/-- C10 witness: bare `123`/`456` and the prefixed forms give the same
review-list and reply URLs. -/
theorem c10_normalization_idempotent_witness :
    reviewsUrl ("accounts/" ++ "123") ("locations/" ++ "456") =
      reviewsUrl "123" "456" ∧
    replyUrl ("accounts/" ++ "123") ("locations/" ++ "456") "r9" =
      replyUrl "123" "456" "r9" :=
  c10_normalization_idempotent.2.2 "123" "456" "r9" (by decide) (by decide)

/-! ### Claim C1: no failure isolation in the publish loop -/

/-- C1 counterexample: with two eligible reviews and a publish oracle that
fails on the first, the run makes one publish attempt, propagates the
error, and never attempts the second pair, refuting the claimed failure
isolation. -/
theorem c1_publish_failure_stops_rest :
    (replyToUnrepliedReviews c1resp c1post [c1r1, c1r2]).1 = [("r1", "t1")] ∧
    (replyToUnrepliedReviews c1resp c1post [c1r1, c1r2]).2 = some "boom" ∧
    ([c1r1, c1r2].filter eligible).length = 2 ∧
    "r2" ∉ (replyToUnrepliedReviews c1resp c1post [c1r1, c1r2]).1.map Prod.fst := by
  decide

/-- C1 (amended): a publish failure for one pair stops the publish attempts
for every later pair — the exception aborts the `for` loop and is
re-raised, so the attempts are exactly the successful ones before the
failure plus the failing one. -/
theorem c1_publishLoop_aborts_on_failure
    (post : String → String → Except String Unit)
    (l₁ l₂ : List (Review × ReplyDraft)) (r : Review) (d : ReplyDraft)
    (e : String)
    (hok : ∀ p ∈ l₁, post p.1.reviewId p.2.reply_text = Except.ok ())
    (hfail : post r.reviewId d.reply_text = Except.error e) :
    publishLoop post (l₁ ++ (r, d) :: l₂) =
      ((l₁.map fun p => (p.1.reviewId, p.2.reply_text)) ++
        [(r.reviewId, d.reply_text)], some e) := by
  induction l₁ with
  | nil => simp [publishLoop, hfail]
  | cons p ps ih =>
    obtain ⟨pr, pd⟩ := p
    have hpost : post pr.reviewId pd.reply_text = Except.ok () :=
      hok (pr, pd) (List.mem_cons_self _ _)
    have ih' := ih (fun q hq => hok q (List.mem_cons_of_mem _ hq))
    simp only [List.cons_append, List.map_cons]
    simp [publishLoop, hpost, ih']

/-- C1 witness: the amended statement at a concrete failing oracle. -/
theorem c1_publishLoop_aborts_on_failure_witness :
    publishLoop c1post
      [(c1r1, ⟨"r1", "t1"⟩), (c1r2, ⟨"r2", "t2"⟩)] =
      ([("r1", "t1")], some "boom") :=
  c1_publishLoop_aborts_on_failure c1post [] [(c1r2, ⟨"r2", "t2"⟩)]
    c1r1 ⟨"r1", "t1"⟩ "boom" (by simp) rfl

/-! ### Chunking and generation-loop lemmas -/

lemma chunkAux_join : ∀ (fuel bs : Nat) (l : List Review),
    l.length ≤ fuel → 1 ≤ bs → (chunkAux fuel bs l).flatten = l := by
  intro fuel
  induction fuel with
  | zero =>
    intro bs l hl _
    have hnil : l = [] := List.eq_nil_of_length_eq_zero (Nat.le_zero.mp hl)
    subst hnil
    rfl
  | succ m ih =>
    intro bs l hl hbs
    cases l with
    | nil => rfl
    | cons a as =>
      have hlen : ((a :: as).drop bs).length ≤ m := by
        rw [List.length_drop]
        simp only [List.length_cons] at hl ⊢
        omega
      calc (chunkAux (m + 1) bs (a :: as)).flatten
          = (a :: as).take bs ++ (chunkAux m bs ((a :: as).drop bs)).flatten := rfl
        _ = (a :: as).take bs ++ (a :: as).drop bs := by rw [ih bs _ hlen hbs]
        _ = a :: as := List.take_append_drop bs (a :: as)

lemma chunkAux_length_le : ∀ (fuel bs : Nat) (l : List Review) (c : List Review),
    c ∈ chunkAux fuel bs l → c.length ≤ bs := by
  intro fuel
  induction fuel with
  | zero =>
    intro bs l c hc
    simp [chunkAux] at hc
  | succ m ih =>
    intro bs l c hc
    cases l with
    | nil => simp [chunkAux] at hc
    | cons a as =>
      rcases List.mem_cons.mp hc with h | h
      · subst h
        exact List.length_take_le _ _
      · exact ih bs _ c h

lemma genLoop_eq_join (responses : Nat → Option (List JEntry)) :
    ∀ (k : Nat) (bsl : List (List Review)),
      genLoop responses k bsl =
        ((List.enumFrom k bsl).map fun p => processBatch (responses p.1)).flatten := by
  intro k bsl
  induction bsl generalizing k with
  | nil => rfl
  | cons b bs ih => simp [genLoop, List.enumFrom, ih]

/-! ### Claim C2: shape of a batch's contribution -/

/-- C2 counterexample: a batch of a single review whose generation response
parses to two structurally valid entries with foreign ids contributes both
drafts: the code enforces neither the `≤ N` bound, nor uniqueness, nor
membership of the draft ids in the batch. -/
theorem c2_contract_not_enforced :
    generateReviewRepliesBatch c2resp [c2rev] 10 = [⟨"b", "t"⟩, ⟨"c", "u"⟩] ∧
    ¬ (generateReviewRepliesBatch c2resp [c2rev] 10 = [] ∨
       ((generateReviewRepliesBatch c2resp [c2rev] 10).length ≤
          ([c2rev] : List Review).length ∧
        ∀ d ∈ generateReviewRepliesBatch c2resp [c2rev] 10,
          ∃ r ∈ ([c2rev] : List Review), d.review_id = r.reviewId)) := by
  decide

/-- C2 (amended): a batch contributes either zero drafts — exactly when the
generation call or JSON parse failed (`none`) or some parsed element lacks
a required key — or all parsed entries verbatim, with no bound on their
number and no check against the batch's review ids; no exception escapes
the batch (the embedding is total). -/
theorem c2_batch_contribution_shape (resp : Option (List JEntry)) :
    (processBatch resp = [] ∧
      (resp = none ∨ ∃ es, resp = some es ∧ es.all entryValid = false)) ∨
    (∃ es, resp = some es ∧ es.all entryValid = true ∧
      processBatch resp = es.map toDraft) := by
  match resp with
  | none => exact Or.inl ⟨rfl, Or.inl rfl⟩
  | some es =>
    by_cases h : es.all entryValid = true
    · exact Or.inr ⟨es, rfl, h, by simp [processBatch, h]⟩
    · have h' : es.all entryValid = false := by simpa using h
      exact Or.inl ⟨by simp [processBatch, h'], Or.inr ⟨es, rfl, h'⟩⟩

/-! ### Claim C8: batching partitions the input and preserves order -/

/-- C8: for a positive `batch_size` the batches are consecutive slices of
size at most `batch_size` whose concatenation is the input, and the
accumulated drafts are the concatenation, in batch order, of each batch's
contribution. -/
theorem c8_partition_and_order (responses : Nat → Option (List JEntry))
    (reviews : List Review) (bs : Nat) (hbs : 1 ≤ bs) :
    (chunkList bs reviews).flatten = reviews ∧
    (∀ c ∈ chunkList bs reviews, c.length ≤ bs) ∧
    generateReviewRepliesBatch responses reviews bs =
      ((chunkList bs reviews).enum.map fun p => processBatch (responses p.1)).flatten := by
  refine ⟨chunkAux_join _ _ _ le_rfl hbs, fun c hc => chunkAux_length_le _ _ _ c hc, ?_⟩
  unfold generateReviewRepliesBatch
  rw [genLoop_eq_join]
  rfl

/-- C8 witness: the statement at `batch_size = 1` on a two-review list. -/
theorem c8_partition_and_order_witness :
    (chunkList 1 [c1r1, c1r2]).flatten = [c1r1, c1r2] ∧
    (∀ c ∈ chunkList 1 [c1r1, c1r2], c.length ≤ 1) ∧
    generateReviewRepliesBatch c1resp [c1r1, c1r2] 1 =
      ((chunkList 1 [c1r1, c1r2]).enum.map fun p => processBatch (c1resp p.1)).flatten :=
  c8_partition_and_order c1resp [c1r1, c1r2] 1 (by decide)

/-! ### Fetch-loop lemmas -/

lemma fetchLoop_sound (feed : Nat → Page) (cutoff : Int) :
    ∀ (fuel i : Nat) (acc res : List Review),
      fetchLoop feed cutoff fuel i acc = some res →
      ∃ n, 0 < n ∧
        res = acc ++
          ((List.range n).map fun k => filteredPage feed cutoff (i + k)).flatten := by
  intro fuel
  induction fuel with
  | zero =>
    intro i acc res h
    simp [fetchLoop] at h
  | succ m ih =>
    intro i acc res h
    unfold fetchLoop at h
    by_cases hstop : (feed i).hasNext = false ∨ filteredPage feed cutoff i = []
    · rw [if_pos hstop] at h
      refine ⟨1, Nat.one_pos, ?_⟩
      simp only [Option.some_inj] at h
      rw [← h, show List.range 1 = [0] from rfl]
      simp
    · rw [if_neg hstop] at h
      obtain ⟨n, hn, hres⟩ := ih (i + 1) _ res h
      refine ⟨n + 1, Nat.succ_pos n, ?_⟩
      rw [hres, List.range_succ_eq_map, List.map_cons, List.flatten_cons,
        List.map_map]
      have hmap : (List.range n).map
            ((fun k => filteredPage feed cutoff (i + k)) ∘ Nat.succ) =
          (List.range n).map (fun k => filteredPage feed cutoff (i + 1 + k)) := by
        refine List.map_congr_left fun k _ => ?_
        simp only [Function.comp_apply]
        congr 1
        omega
      rw [hmap]
      simp [List.append_assoc]

lemma fetchLoop_isSome (feed : Nat → Page) (cutoff : Int) :
    ∀ (fuel i : Nat) (acc : List Review),
      ((List.range fuel).map fun k => (filteredPage feed cutoff (i + k)).length).sum < fuel →
      (fetchLoop feed cutoff fuel i acc).isSome = true := by
  intro fuel
  induction fuel with
  | zero =>
    intro i acc h
    simp at h
  | succ m ih =>
    intro i acc h
    unfold fetchLoop
    by_cases hstop : (feed i).hasNext = false ∨ filteredPage feed cutoff i = []
    · rw [if_pos hstop]
      rfl
    · rw [if_neg hstop]
      push_neg at hstop
      have hne : filteredPage feed cutoff i ≠ [] := hstop.2
      have hpos : 1 ≤ (filteredPage feed cutoff i).length :=
        Nat.one_le_iff_ne_zero.mpr (fun hz => hne (List.eq_nil_of_length_eq_zero hz))
      have hdecomp :
          ((List.range (m + 1)).map fun k =>
              (filteredPage feed cutoff (i + k)).length).sum =
            (filteredPage feed cutoff i).length +
              ((List.range m).map fun k =>
                (filteredPage feed cutoff (i + 1 + k)).length).sum := by
        rw [List.range_succ_eq_map, List.map_cons, List.sum_cons, List.map_map]
        have hmap2 : (List.range m).map
              ((fun k => (filteredPage feed cutoff (i + k)).length) ∘ Nat.succ) =
            (List.range m).map
              (fun k => (filteredPage feed cutoff (i + 1 + k)).length) := by
          refine List.map_congr_left fun k _ => ?_
          simp only [Function.comp_apply]
          congr 2
          omega
        rw [hmap2]
        simp
      apply ih (i + 1)
      rw [hdecomp] at h
      omega

/-! ### Claim C3: the time-window filter is exact -/

/-- C3: when the pagination loop completes, the returned list is exactly
the concatenation of the in-window filters of the fetched pages: every
returned review has `createTime ≥ cutoff`, and the result is the flattened
filter of pages `0..n-1` for the number `n` of pages fetched, so no
out-of-window review is included. -/
theorem c3_fetch_exactly_in_window (feed : Nat → Page) (cutoff : Int)
    (fuel : Nat) (res : List Review)
    (h : fetchLoop feed cutoff fuel 0 [] = some res) :
    (∀ r ∈ res, cutoff ≤ r.createTime) ∧
    ∃ n, 0 < n ∧
      res = ((List.range n).map fun k => filteredPage feed cutoff k).flatten := by
  obtain ⟨n, hn, hres⟩ := fetchLoop_sound feed cutoff fuel 0 [] res h
  have hres' : res = ((List.range n).map fun k => filteredPage feed cutoff k).flatten := by
    rw [hres]
    simp
  constructor
  · intro r hr
    rw [hres'] at hr
    rw [List.mem_flatten] at hr
    obtain ⟨l, hl, hrl⟩ := hr
    rw [List.mem_map] at hl
    obtain ⟨k, _, hlk⟩ := hl
    rw [← hlk] at hrl
    unfold filteredPage at hrl
    rw [List.mem_filter] at hrl
    exact of_decide_eq_true hrl.2
  · exact ⟨n, hn, hres'⟩

/-- C3 witness: a concrete two-page feed whose first page holds one
in-window review. -/
theorem c3_fetch_exactly_in_window_witness :
    (∀ r ∈ [c1r1], (0 : Int) ≤ r.createTime) ∧
    ∃ n, 0 < n ∧
      [c1r1] = ((List.range n).map fun k => filteredPage c4feed 0 k).flatten :=
  c3_fetch_exactly_in_window c4feed 0 5 [c1r1] (by decide)

/-! ### Claim C4: pagination exit rule and bounded iteration -/

/-- C4: after each page the loop exits exactly when the page has no next
token or contributed zero in-window reviews, and continues to the next page
otherwise; consequently, when the in-window reviews of the whole feed
number at most `K`, the loop finishes within `K + 1` iterations. -/
theorem c4_pagination_terminates (feed : Nat → Page) (cutoff : Int) :
    (∀ (fuel i : Nat) (acc : List Review),
      ((feed i).hasNext = false ∨ filteredPage feed cutoff i = []) →
      fetchLoop feed cutoff (fuel + 1) i acc =
        some (acc ++ filteredPage feed cutoff i)) ∧
    (∀ (fuel i : Nat) (acc : List Review),
      (feed i).hasNext = true → filteredPage feed cutoff i ≠ [] →
      fetchLoop feed cutoff (fuel + 1) i acc =
        fetchLoop feed cutoff fuel (i + 1) (acc ++ filteredPage feed cutoff i)) ∧
    (∀ K : Nat,
      (∀ n, ((List.range n).map fun k => (filteredPage feed cutoff k).length).sum ≤ K) →
      (fetchLoop feed cutoff (K + 1) 0 []).isSome = true) := by
  refine ⟨?_, ?_, ?_⟩
  · intro fuel i acc h
    unfold fetchLoop
    rw [if_pos h]
  · intro fuel i acc h1 h2
    rw [show fetchLoop feed cutoff (fuel + 1) i acc =
        if (feed i).hasNext = false ∨ filteredPage feed cutoff i = []
        then some (acc ++ filteredPage feed cutoff i)
        else fetchLoop feed cutoff fuel (i + 1) (acc ++ filteredPage feed cutoff i)
      from rfl]
    rw [if_neg (by simp [h1, h2])]
  · intro K hK
    apply fetchLoop_isSome
    have := hK (K + 1)
    have hsums :
        ((List.range (K + 1)).map fun k =>
            (filteredPage feed cutoff (0 + k)).length).sum =
          ((List.range (K + 1)).map fun k =>
            (filteredPage feed cutoff k).length).sum := by
      refine congrArg List.sum (List.map_congr_left fun k _ => ?_)
      simp
    omega

/-- C4 witness: a feed with a next token on every page and no in-window
reviews exits on the first page, and one unit of fuel suffices. -/
theorem c4_pagination_terminates_witness :
    fetchLoop c4feedEmpty 0 (0 + 1) 0 [] =
      some ([] ++ filteredPage c4feedEmpty 0 0) ∧
    (fetchLoop c4feedEmpty 0 (0 + 1) 0 []).isSome = true :=
  ⟨(c4_pagination_terminates c4feedEmpty 0).1 0 0 [] (Or.inr (by decide)),
   (c4_pagination_terminates c4feedEmpty 0).2.2 0
     (fun n => by simp [filteredPage, c4feedEmpty])⟩

/-! ### Publish-loop success lemma -/

lemma publishLoop_all_ok (post : String → String → Except String Unit) :
    ∀ l : List (Review × ReplyDraft),
      (∀ p ∈ l, post p.1.reviewId p.2.reply_text = Except.ok ()) →
      publishLoop post l =
        (l.map fun p => (p.1.reviewId, p.2.reply_text), none) := by
  intro l
  induction l with
  | nil => intro _; rfl
  | cons p ps ih =>
    intro hok
    obtain ⟨pr, pd⟩ := p
    have hpost : post pr.reviewId pd.reply_text = Except.ok () :=
      hok (pr, pd) (List.mem_cons_self _ _)
    have ih' := ih fun q hq => hok q (List.mem_cons_of_mem _ hq)
    simp [publishLoop, hpost, ih']

/-! ### Claim C5: positional pairing and the reported count -/

/-- C5 counterexample: two eligible reviews but a single generated draft;
every publish succeeds, exactly one publish attempt is made, yet the `200`
body reports `Processed 2 unreplied reviews`. -/
theorem c5_reported_count_not_attempts :
    (replyReviewsCore c5resp okPost [c1r1, c1r2]).1 = HttpResult.ok 2 ∧
    (replyReviewsCore c5resp okPost [c1r1, c1r2]).2 = [("r1", "t1")] ∧
    (replyReviewsCore c5resp okPost [c1r1, c1r2]).2.length = 1 := by
  decide

/-- C5 (amended): drafts are paired positionally with the eligible reviews
via `zip`, and each attempt publishes the draft's `reply_text` to the
review's `reviewId`; but the `N` of the `200` body is the number of
eligible reviews, which exceeds the number of publish attempts whenever
fewer drafts than eligible reviews were generated (attempts number
`min eligible drafts` when every publish succeeds). -/
theorem c5_positional_pairing_count (responses : Nat → Option (List JEntry))
    (post : String → String → Except String Unit) (reviews : List Review)
    (hok : ∀ a b, post a b = Except.ok ()) :
    (replyReviewsCore responses post reviews).1 =
      HttpResult.ok (reviews.filter eligible).length ∧
    (replyReviewsCore responses post reviews).2 =
      ((reviews.filter eligible).zip
          (generateReviewRepliesBatch responses (reviews.filter eligible) 10)).map
        (fun p => (p.1.reviewId, p.2.reply_text)) ∧
    (replyReviewsCore responses post reviews).2.length =
      min (reviews.filter eligible).length
        (generateReviewRepliesBatch responses (reviews.filter eligible) 10).length := by
  have hloop := publishLoop_all_ok post
    ((reviews.filter eligible).zip
      (generateReviewRepliesBatch responses (reviews.filter eligible) 10))
    (fun p _ => hok _ _)
  unfold replyReviewsCore replyToUnrepliedReviews
  by_cases hempty : (reviews.filter eligible).isEmpty
  · rw [if_pos hempty]
    have hnil : reviews.filter eligible = [] := List.isEmpty_iff.mp hempty
    rw [hnil]
    simp
  · rw [if_neg hempty, hloop]
    refine ⟨rfl, rfl, ?_⟩
    rw [List.length_map, List.length_zip]

/-- C5 witness: the amended statement at a concrete always-succeeding
publish oracle. -/
theorem c5_positional_pairing_count_witness :
    (replyReviewsCore c5resp okPost [c1r1, c1r2]).1 =
      HttpResult.ok ([c1r1, c1r2].filter eligible).length ∧
    (replyReviewsCore c5resp okPost [c1r1, c1r2]).2 =
      (([c1r1, c1r2].filter eligible).zip
          (generateReviewRepliesBatch c5resp ([c1r1, c1r2].filter eligible) 10)).map
        (fun p => (p.1.reviewId, p.2.reply_text)) ∧
    (replyReviewsCore c5resp okPost [c1r1, c1r2]).2.length =
      min ([c1r1, c1r2].filter eligible).length
        (generateReviewRepliesBatch c5resp ([c1r1, c1r2].filter eligible) 10).length :=
  c5_positional_pairing_count c5resp okPost [c1r1, c1r2] (fun _ _ => rfl)

/-! ### Claim C6: the eligible set -/

/-- C6: a review is selected exactly when it carries no (truthy) reply and
its comment — defaulting to the empty string when absent — has a
non-whitespace character; when the eligible set is empty the run makes no
publish attempt and reports `Processed 0` as a `200`, not an error. -/
theorem c6_eligible_set (responses : Nat → Option (List JEntry))
    (post : String → String → Except String Unit) (reviews : List Review) :
    (∀ r, r ∈ reviews.filter eligible ↔
      (r ∈ reviews ∧ r.hasReviewReply = false ∧
        strippedEmpty (r.comment.getD "") = false)) ∧
    (reviews.filter eligible = [] →
      replyReviewsCore responses post reviews = (HttpResult.ok 0, [])) := by
  constructor
  · intro r
    rw [List.mem_filter]
    unfold eligible
    constructor
    · rintro ⟨hmem, helig⟩
      rw [Bool.and_eq_true, Bool.not_eq_true', Bool.not_eq_true'] at helig
      exact ⟨hmem, helig.1, helig.2⟩
    · rintro ⟨hmem, h1, h2⟩
      refine ⟨hmem, ?_⟩
      rw [Bool.and_eq_true, Bool.not_eq_true', Bool.not_eq_true']
      exact ⟨h1, h2⟩
  · intro h
    unfold replyReviewsCore replyToUnrepliedReviews
    rw [h]
    rfl

/-- C6 witness: a whitespace-only comment, a missing comment and an
already-replied review are all ineligible, and the run reports `0`. -/
theorem c6_eligible_set_witness :
    replyReviewsCore c1resp okPost
      [wsReview, ⟨"m1", none, false, 0⟩, ⟨"m2", some "fine", true, 0⟩] =
      (HttpResult.ok 0, []) :=
  (c6_eligible_set c1resp okPost
    [wsReview, ⟨"m1", none, false, 0⟩, ⟨"m2", some "fine", true, 0⟩]).2 (by decide)

/-! ### Claim C7: `days` validation -/

/-- C7 counterexample: `days = "0"` and `days = "-5"` pass validation — the
entry point only requires `int(days)` to parse, so a non-positive integer
does not produce the claimed `400`, and the parsed value (not a default) is
used. -/
theorem c7_nonpositive_days_accepted :
    daysValidation "0" = Except.ok 0 ∧
    daysValidation "-5" = Except.ok (-5) ∧
    ¬ daysValidation "0" = Except.ok 1 :=
  ⟨rfl, rfl, by simp [daysValidation, pyParseInt, pyTrimChars, digitsToNat]⟩

/-- C7 (amended): validation only rejects strings that fail integer
parsing (those yield the `400` error); every string parsing to an integer
`d` — zero and negative values included — proceeds with exactly `d`, whose
cutoff `now - d` is then not in the past when `d ≤ 0`. -/
theorem c7_days_integer_only (s : String) (d now : Int)
    (h : pyParseInt s = some d) :
    daysValidation s = Except.ok d ∧
    (pyParseInt s = none → daysValidation s = Except.error "Days must be an integer") ∧
    (d ≤ 0 → now ≤ cutoffDate now d) := by
  refine ⟨?_, ?_, ?_⟩
  · unfold daysValidation
    rw [h]
  · intro hnone
    rw [h] at hnone
    cases hnone
  · intro hd
    unfold cutoffDate
    omega

/-- C7 witness: the amended statement at `days = "0"`. -/
theorem c7_days_integer_only_witness :
    daysValidation "0" = Except.ok 0 ∧
    (pyParseInt "0" = none →
      daysValidation "0" = Except.error "Days must be an integer") ∧
    ((0 : Int) ≤ 0 → (100 : Int) ≤ cutoffDate 100 0) :=
  c7_days_integer_only "0" 0 100 rfl

end ReplyReviews
